import Mathlib

/-!
Verification of the task-list (to-do) backend: a shallow embedding of the
route handlers of `src/server.ts` (the canonical variant: UUID string ids,
strict field validation) together with the two storage semantics of
`getTasks`/`saveTasks`:

* local in-memory mode (`localTasks`): `getTasks` returns the stored array
  itself, so in-place mutations performed by a handler are visible in the
  store even when `saveTasks` is never called (aliasing);
* KV mode: `getTasks` parses a fresh copy from the key-value store, so the
  store changes only when `saveTasks` runs.

Handlers are modelled as pure functions from the loaded task list and the
request data to a `HandlerResult` recording the HTTP status, the response
payload, the final state of the in-memory array when the handler returns
(`arr`), and whether `saveTasks` was reached (`saved`).  The two store
semantics are then `localStoreAfter` and `kvStoreAfter`.
-/

namespace TodoApp

/-- The `Task` record of `server.ts`:
`interface Task { id: string; task: string; completed: boolean; createdAt: string }`. -/
structure Task where
  id : String
  task : String
  completed : Bool
  createdAt : String
deriving DecidableEq, Repr

/-- A JSON value as far as the handlers inspect request bodies:
strings, numbers, booleans and null.  A field that is absent
(JavaScript `undefined`) is modelled as `Option.none` at the use site. -/
inductive Json where
  | str : String → Json
  | num : Int → Json
  | bool : Bool → Json
  | null : Json
deriving DecidableEq, Repr

/-- JavaScript truthiness of a JSON value, as tested by `!body.task`. -/
def Json.truthy : Json → Bool
  | .str s => !(s == "")
  | .num n => !(n == 0)
  | .bool b => b
  | .null => false

/-- Whether `typeof v === 'string'` holds. -/
def Json.isString : Json → Bool
  | .str _ => true
  | _ => false

/-- The string payload of a JSON string (only inspected after `isString`). -/
def Json.asString : Json → String
  | .str s => s
  | _ => ""

/-- `cs` with leading and trailing whitespace characters removed. -/
def trimChars (cs : List Char) : List Char :=
  ((cs.dropWhile Char.isWhitespace).reverse.dropWhile Char.isWhitespace).reverse

/-- JavaScript `String.prototype.trim`: the string with leading and trailing
whitespace removed (defined on the character list so that it is fully
executable). -/
def trimStr (s : String) : String :=
  ⟨trimChars s.data⟩

/-- Body of `POST /api/todos`: the `task` field, possibly absent. -/
structure CreateBody where
  task : Option Json
deriving DecidableEq, Repr

/-- Body of `PUT /api/todos/:id`: optional `task` and `completed` fields. -/
structure PutBody where
  task : Option Json
  completed : Option Json
deriving DecidableEq, Repr

/-- Result of running a handler on a loaded task list:
HTTP status, the `success` flag and `data`/`error` payload of the response
envelope, the in-memory array `arr` at the moment the handler returned,
and whether `saveTasks` was executed. -/
structure HandlerResult where
  status : Nat
  success : Bool
  data : Option Task
  error : Option String
  arr : List Task
  saved : Bool
deriving DecidableEq, Repr

/-- Store contents observed by a later `GET` in local in-memory mode:
`getTasks` returned the stored array itself, so whatever the handler did to
the array is the store, whether or not `saveTasks` ran. -/
def localStoreAfter (r : HandlerResult) : List Task := r.arr

/-- Store contents observed by a later `GET` in KV mode: the handler worked
on a freshly parsed copy, so the store changes only if `saveTasks` ran. -/
def kvStoreAfter (st : List Task) (r : HandlerResult) : List Task :=
  if r.saved then r.arr else st

/-- `tasks.findIndex((task) => task.id === id)`, with `none` for `-1`. -/
def findTaskIndex (tasks : List Task) (id : String) : Option Nat :=
  match tasks with
  | [] => none
  | t :: rest =>
      if t.id == id then some 0 else (findTaskIndex rest id).map (· + 1)

/-- In-place update `tasks[i] = f tasks[i]` (no effect when `i` is out of
range, which never happens on the handlers' paths). -/
def modifyAt (tasks : List Task) (i : Nat) (f : Task → Task) : List Task :=
  match tasks, i with
  | [], _ => []
  | t :: rest, 0 => f t :: rest
  | t :: rest, n + 1 => t :: modifyAt rest n f

/-- `tasks.splice(i, 1)`: remove the element at index `i`. -/
def eraseAt (tasks : List Task) (i : Nat) : List Task :=
  match tasks, i with
  | [], _ => []
  | _ :: rest, 0 => rest
  | t :: rest, n + 1 => t :: eraseAt rest n

/-- The validation of `POST /api/todos`:
`!body.task || typeof body.task !== 'string' || body.task.trim() === ''`. -/
def invalidCreateTask (t : Option Json) : Bool :=
  match t with
  | none => true
  | some v => !v.truthy || !v.isString || (trimStr v.asString == "")

/-- Handler of `GET /api/todos`: returns the whole collection with 200. -/
def getTodos (tasks : List Task) : Nat × List Task :=
  (200, tasks)

/-- Handler of `POST /api/todos`.  `newId` is the value returned by
`generateId()` (`crypto.randomUUID()`) and `now` the value of
`new Date().toISOString()`; both are inputs from the environment. -/
def postTodos (tasks : List Task) (body : CreateBody) (newId now : String) :
    HandlerResult :=
  if invalidCreateTask body.task then
    { status := 400, success := false, data := none,
      error := some "O campo \"task\" é obrigatório e deve ser uma string não vazia",
      arr := tasks, saved := false }
  else
    let newTask : Task :=
      { id := newId, task := trimStr (body.task.getD Json.null).asString,
        completed := false, createdAt := now }
    { status := 201, success := true, data := some newTask, error := none,
      arr := tasks ++ [newTask], saved := true }

/-- The tail of `PUT /api/todos/:id` after the `task` field was handled:
validate and apply the optional `completed` field, then save and respond. -/
def putCompletedStep (tasks : List Task) (i : Nat) (completed : Option Json) :
    HandlerResult :=
  match completed with
  | none =>
      { status := 200, success := true, data := tasks.get? i, error := none,
        arr := tasks, saved := true }
  | some (.bool b) =>
      let tasks2 := modifyAt tasks i (fun t => { t with completed := b })
      { status := 200, success := true, data := tasks2.get? i, error := none,
        arr := tasks2, saved := true }
  | some _ =>
      { status := 400, success := false, data := none,
        error := some "O campo \"completed\" deve ser um booleano",
        arr := tasks, saved := false }

/-- Handler of `PUT /api/todos/:id`. -/
def putTodos (tasks : List Task) (id : String) (body : PutBody) :
    HandlerResult :=
  match findTaskIndex tasks id with
  | none =>
      { status := 404, success := false, data := none,
        error := some "Tarefa não encontrada", arr := tasks, saved := false }
  | some i =>
      match body.task with
      | none => putCompletedStep tasks i body.completed
      | some v =>
          if !v.isString || (trimStr v.asString == "") then
            { status := 400, success := false, data := none,
              error := some "O campo \"task\" deve ser uma string não vazia",
              arr := tasks, saved := false }
          else
            putCompletedStep
              (modifyAt tasks i (fun t => { t with task := trimStr v.asString }))
              i body.completed

/-- Handler of `DELETE /api/todos/:id`. -/
def deleteTodos (tasks : List Task) (id : String) : HandlerResult :=
  match findTaskIndex tasks id with
  | none =>
      { status := 404, success := false, data := none,
        error := some "Tarefa não encontrada", arr := tasks, saved := false }
  | some i =>
      { status := 200, success := true, data := tasks.get? i, error := none,
        arr := eraseAt tasks i, saved := true }

/-! ### Helper lemmas -/

theorem findTaskIndex_eq_none_iff (tasks : List Task) (id : String) :
    findTaskIndex tasks id = none ↔ ∀ t ∈ tasks, t.id ≠ id := by
  induction tasks with
  | nil => simp [findTaskIndex]
  | cons t rest ih =>
      by_cases h : t.id = id
      · simp [findTaskIndex, h]
      · simp [findTaskIndex, h, Option.map_eq_none', ih]

theorem findTaskIndex_some (tasks : List Task) (id : String) (i : Nat)
    (h : findTaskIndex tasks id = some i) :
    ∃ t, tasks.get? i = some t ∧ t.id = id := by
  induction tasks generalizing i with
  | nil => simp [findTaskIndex] at h
  | cons t rest ih =>
      by_cases ht : t.id = id
      · simp [findTaskIndex, ht] at h
        exact ⟨t, by simp [← h], ht⟩
      · simp [findTaskIndex, ht, Option.map_eq_some'] at h
        obtain ⟨j, hj, hij⟩ := h
        obtain ⟨u, hu, hid⟩ := ih j hj
        exact ⟨u, by rw [← hij]; simpa using hu, hid⟩

theorem get?_modifyAt_self (tasks : List Task) (i : Nat) (f : Task → Task) :
    (modifyAt tasks i f).get? i = (tasks.get? i).map f := by
  induction tasks generalizing i with
  | nil => simp [modifyAt]
  | cons t rest ih =>
      cases i with
      | zero => simp [modifyAt]
      | succ n => simpa [modifyAt] using ih n

theorem get?_modifyAt_ne (tasks : List Task) (i j : Nat) (f : Task → Task)
    (h : j ≠ i) : (modifyAt tasks i f).get? j = tasks.get? j := by
  induction tasks generalizing i j with
  | nil => simp [modifyAt]
  | cons t rest ih =>
      cases i with
      | zero =>
          cases j with
          | zero => exact absurd rfl h
          | succ m => simp [modifyAt]
      | succ n =>
          cases j with
          | zero => simp [modifyAt]
          | succ m => simpa [modifyAt] using ih n m (by omega)

theorem map_id_modifyAt (tasks : List Task) (i : Nat) (f : Task → Task)
    (hf : ∀ t, (f t).id = t.id) :
    (modifyAt tasks i f).map Task.id = tasks.map Task.id := by
  induction tasks generalizing i with
  | nil => simp [modifyAt]
  | cons t rest ih =>
      cases i with
      | zero => simp [modifyAt, hf]
      | succ n => simp [modifyAt, ih n]

theorem length_modifyAt (tasks : List Task) (i : Nat) (f : Task → Task) :
    (modifyAt tasks i f).length = tasks.length := by
  induction tasks generalizing i with
  | nil => simp [modifyAt]
  | cons t rest ih =>
      cases i with
      | zero => simp [modifyAt]
      | succ n => simp [modifyAt, ih n]

theorem eraseAt_sublist (tasks : List Task) (i : Nat) :
    (eraseAt tasks i).Sublist tasks := by
  induction tasks generalizing i with
  | nil => simp [eraseAt]
  | cons t rest ih =>
      cases i with
      | zero => exact (List.sublist_cons_self t rest)
      | succ n => exact (ih n).cons₂ t

theorem length_eraseAt (tasks : List Task) (i : Nat) (h : i < tasks.length) :
    (eraseAt tasks i).length + 1 = tasks.length := by
  induction tasks generalizing i with
  | nil => simp at h
  | cons t rest ih =>
      cases i with
      | zero => simp [eraseAt]
      | succ n =>
          have := ih n (by simpa using h)
          simp [eraseAt]
          omega

theorem findTaskIndex_lt_length (tasks : List Task) (id : String) (i : Nat)
    (h : findTaskIndex tasks id = some i) : i < tasks.length := by
  obtain ⟨t, ht, _⟩ := findTaskIndex_some tasks id i h
  exact List.get?_eq_some.mp ht |>.1

theorem findTaskIndex_eraseAt (tasks : List Task) (id : String) (i : Nat)
    (hnd : (tasks.map Task.id).Nodup) (h : findTaskIndex tasks id = some i) :
    findTaskIndex (eraseAt tasks i) id = none := by
  induction tasks generalizing i with
  | nil => simp [findTaskIndex] at h
  | cons t rest ih =>
      simp only [List.map_cons, List.nodup_cons] at hnd
      by_cases ht : t.id = id
      · simp [findTaskIndex, ht] at h
        subst h
        rw [show eraseAt (t :: rest) 0 = rest from rfl,
          findTaskIndex_eq_none_iff]
        intro u hu
        intro hc
        exact hnd.1 (by rw [← ht] at hc; exact hc ▸ List.mem_map_of_mem Task.id hu)
      · simp [findTaskIndex, ht, Option.map_eq_some'] at h
        obtain ⟨j, hj, hij⟩ := h
        subst hij
        rw [show eraseAt (t :: rest) (j + 1) = t :: eraseAt rest j from rfl]
        simp [findTaskIndex, ht, Option.map_eq_none']
        exact ih j hnd.2 hj

theorem postTodos_status_201 (tasks : List Task) (body : CreateBody)
    (newId now : String) (h : (postTodos tasks body newId now).status = 201) :
    ∃ t : Task, (postTodos tasks body newId now).data = some t ∧ t.id = newId ∧
      (postTodos tasks body newId now).arr = tasks ++ [t] := by
  unfold postTodos at *
  by_cases hv : invalidCreateTask body.task
  · simp [hv] at h
  · simp [hv]

theorem postTodos_arr_cases (tasks : List Task) (body : CreateBody)
    (newId now : String) :
    (postTodos tasks body newId now).arr = tasks ∨
    ∃ t : Task, t.id = newId ∧
      (postTodos tasks body newId now).arr = tasks ++ [t] := by
  unfold postTodos
  by_cases hv : invalidCreateTask body.task
  · simp [hv]
  · simp [hv]

theorem putCompletedStep_map_id (tasks : List Task) (i : Nat)
    (completed : Option Json) :
    ((putCompletedStep tasks i completed).arr).map Task.id =
      tasks.map Task.id := by
  unfold putCompletedStep
  match completed with
  | none => rfl
  | some (.bool b) => exact map_id_modifyAt tasks i _ (fun t => rfl)
  | some (.str s) => rfl
  | some (.num n) => rfl
  | some .null => rfl

theorem putTodos_map_id (tasks : List Task) (id : String) (body : PutBody) :
    ((putTodos tasks id body).arr).map Task.id = tasks.map Task.id := by
  unfold putTodos
  split
  · rfl
  next i _ =>
    split
    · exact putCompletedStep_map_id tasks i body.completed
    next v _ =>
      split
      · rfl
      · rw [putCompletedStep_map_id]
        exact map_id_modifyAt tasks i _ (fun t => rfl)

theorem deleteTodos_status_200 (tasks : List Task) (id : String)
    (h : (deleteTodos tasks id).status = 200) :
    ∃ i, findTaskIndex tasks id = some i ∧
      (deleteTodos tasks id).arr = eraseAt tasks i ∧
      (deleteTodos tasks id).data = tasks.get? i := by
  unfold deleteTodos at *
  match hf : findTaskIndex tasks id with
  | none => simp [hf] at h
  | some i => exact ⟨i, rfl, by simp [hf], by simp [hf]⟩

theorem trimStr_empty : trimStr "" = "" := rfl

theorem ne_empty_of_trimStr_ne_empty (s : String) (h : trimStr s ≠ "") :
    s ≠ "" := by
  intro hs
  exact h (by rw [hs]; rfl)

/-! ### Claims -/

/-- Claim C1: for every request body whose `task` field is a string that is
non-empty after trimming, the create operation stores a record whose `task`
is the trimmed input, whose `completed` is false and whose `createdAt` is the
current time, under the freshly generated id; the record is appended to the
end of the collection, the collection is persisted (in both storage modes),
and the new record is returned with status 201. -/
theorem create_valid_spec (st : List Task) (s newId now : String)
    (h : trimStr s ≠ "") :
    postTodos st { task := some (Json.str s) } newId now =
      { status := 201, success := true,
        data := some { id := newId, task := trimStr s, completed := false,
                       createdAt := now },
        error := none,
        arr := st ++ [{ id := newId, task := trimStr s, completed := false,
                        createdAt := now }],
        saved := true } ∧
    localStoreAfter (postTodos st { task := some (Json.str s) } newId now) =
      st ++ [{ id := newId, task := trimStr s, completed := false,
               createdAt := now }] ∧
    kvStoreAfter st (postTodos st { task := some (Json.str s) } newId now) =
      st ++ [{ id := newId, task := trimStr s, completed := false,
               createdAt := now }] := by
  have hne : s ≠ "" := ne_empty_of_trimStr_ne_empty s h
  have hinv : invalidCreateTask (some (Json.str s)) = false := by
    simp [invalidCreateTask, Json.truthy, Json.isString, Json.asString, hne, h]
  refine ⟨?_, ?_, ?_⟩ <;>
    simp [postTodos, hinv, Json.asString, localStoreAfter, kvStoreAfter]

theorem create_valid_spec_witness :
    trimStr " Buy milk " ≠ "" ∧
    postTodos [] { task := some (Json.str " Buy milk ") } "af1b" "2024-01-01" =
      { status := 201, success := true,
        data := some { id := "af1b", task := trimStr " Buy milk ",
                       completed := false, createdAt := "2024-01-01" },
        error := none,
        arr := [{ id := "af1b", task := trimStr " Buy milk ",
                  completed := false, createdAt := "2024-01-01" }],
        saved := true } :=
  ⟨by decide, (create_valid_spec [] " Buy milk " "af1b" "2024-01-01" (by decide)).1⟩

/-- Claim C4: for every request body whose `task` field is absent, not a
string, or empty after trimming, the create operation returns 400 and the
stored collection is unchanged in both storage modes. -/
theorem create_invalid_rejected (st : List Task) (ob : Option Json)
    (newId now : String) (h : ∀ s, ob = some (Json.str s) → trimStr s = "") :
    (postTodos st { task := ob } newId now).status = 400 ∧
    (postTodos st { task := ob } newId now).data = none ∧
    localStoreAfter (postTodos st { task := ob } newId now) = st ∧
    kvStoreAfter st (postTodos st { task := ob } newId now) = st := by
  have hinv : invalidCreateTask ob = true := by
    match ob with
    | none => rfl
    | some (.str s) =>
        simp [invalidCreateTask, Json.truthy, Json.isString, Json.asString,
          h s rfl]
    | some (.num n) => simp [invalidCreateTask, Json.isString]
    | some (.bool b) => simp [invalidCreateTask, Json.isString]
    | some .null => rfl
  refine ⟨?_, ?_, ?_, ?_⟩ <;>
    simp [postTodos, hinv, localStoreAfter, kvStoreAfter]

theorem create_invalid_rejected_witness :
    (∀ s, some (Json.num 123) = some (Json.str s) → trimStr s = "") ∧
    (postTodos [] { task := some (Json.num 123) } "u1" "T1").status = 400 ∧
    localStoreAfter (postTodos [] { task := some (Json.num 123) } "u1" "T1") =
      [] := by
  have h : ∀ s, some (Json.num 123) = some (Json.str s) → trimStr s = "" := by
    intro s hs
    simp at hs
  exact ⟨h, (create_invalid_rejected [] (some (Json.num 123)) "u1" "T1" h).1,
    (create_invalid_rejected [] (some (Json.num 123)) "u1" "T1" h).2.2.1⟩

/-- Claim C7: for every id not present in the stored collection, the update
operation returns a 404 "not found" error and the stored collection is
unchanged in both storage modes. -/
theorem update_missing_id_notfound (st : List Task) (id : String)
    (body : PutBody) (h : ∀ t ∈ st, t.id ≠ id) :
    (putTodos st id body).status = 404 ∧
    (putTodos st id body).error = some "Tarefa não encontrada" ∧
    (putTodos st id body).saved = false ∧
    localStoreAfter (putTodos st id body) = st ∧
    kvStoreAfter st (putTodos st id body) = st := by
  have hf : findTaskIndex st id = none := (findTaskIndex_eq_none_iff st id).mpr h
  refine ⟨?_, ?_, ?_, ?_, ?_⟩ <;>
    simp [putTodos, hf, localStoreAfter, kvStoreAfter]

theorem update_missing_id_notfound_witness :
    (∀ t ∈ ([{ id := "a1", task := "x", completed := false,
               createdAt := "T0" }] : List Task), t.id ≠ "zz") ∧
    (putTodos [{ id := "a1", task := "x", completed := false,
                 createdAt := "T0" }] "zz"
      { task := none, completed := none }).status = 404 :=
  ⟨by decide,
   (update_missing_id_notfound
      [{ id := "a1", task := "x", completed := false, createdAt := "T0" }]
      "zz" { task := none, completed := none } (by decide)).1⟩

/-- Claim C10: an update request whose body contains neither a `task` nor a
`completed` field, on an id that is present, succeeds with 200, returns the
stored record unchanged, and leaves the stored collection unchanged in both
storage modes. -/
theorem update_empty_body_identity (st : List Task) (id : String) (i : Nat)
    (hf : findTaskIndex st id = some i) :
    ∃ old, st.get? i = some old ∧ old.id = id ∧
      (putTodos st id { task := none, completed := none }).status = 200 ∧
      (putTodos st id { task := none, completed := none }).data = some old ∧
      localStoreAfter (putTodos st id { task := none, completed := none }) =
        st ∧
      kvStoreAfter st (putTodos st id { task := none, completed := none }) =
        st := by
  obtain ⟨old, hold, hid⟩ := findTaskIndex_some st id i hf
  have hold' : st[i]? = some old := by simpa using hold
  refine ⟨old, hold, hid, ?_, ?_, ?_, ?_⟩ <;>
    simp [putTodos, hf, putCompletedStep, hold', localStoreAfter, kvStoreAfter]

theorem update_empty_body_identity_witness :
    findTaskIndex [{ id := "a1", task := "x", completed := false,
                     createdAt := "T0" }] "a1" = some 0 ∧
    ∃ old,
      ([{ id := "a1", task := "x", completed := false,
          createdAt := "T0" }] : List Task).get? 0 = some old ∧ old.id = "a1" ∧
      (putTodos [{ id := "a1", task := "x", completed := false,
                   createdAt := "T0" }] "a1"
        { task := none, completed := none }).status = 200 ∧
      (putTodos [{ id := "a1", task := "x", completed := false,
                   createdAt := "T0" }] "a1"
        { task := none, completed := none }).data = some old ∧
      localStoreAfter (putTodos [{ id := "a1", task := "x", completed := false,
                                   createdAt := "T0" }] "a1"
        { task := none, completed := none }) =
        [{ id := "a1", task := "x", completed := false, createdAt := "T0" }] ∧
      kvStoreAfter [{ id := "a1", task := "x", completed := false,
                      createdAt := "T0" }]
        (putTodos [{ id := "a1", task := "x", completed := false,
                     createdAt := "T0" }] "a1"
          { task := none, completed := none }) =
        [{ id := "a1", task := "x", completed := false, createdAt := "T0" }] :=
  ⟨by decide,
   update_empty_body_identity
     [{ id := "a1", task := "x", completed := false, createdAt := "T0" }]
     "a1" 0 (by decide)⟩

/-- Claim C5: updating a stored record with a body containing only
`completed: true` changes only that record's `completed` field: the record's
`task`, `id` and `createdAt` are untouched and every other record of the
collection is unchanged; the result is persisted in both storage modes. -/
theorem update_completed_true_frame (st : List Task) (id : String) (i : Nat)
    (hf : findTaskIndex st id = some i) :
    ∃ old, st.get? i = some old ∧ old.id = id ∧
      (putTodos st id { task := none, completed := some (Json.bool true) }).status = 200 ∧
      (putTodos st id { task := none, completed := some (Json.bool true) }).data =
        some { id := old.id, task := old.task, completed := true,
               createdAt := old.createdAt } ∧
      localStoreAfter (putTodos st id { task := none, completed := some (Json.bool true) }) =
        modifyAt st i (fun t => { t with completed := true }) ∧
      kvStoreAfter st (putTodos st id { task := none, completed := some (Json.bool true) }) =
        modifyAt st i (fun t => { t with completed := true }) ∧
      (∀ j, j ≠ i →
        (modifyAt st i (fun t => { t with completed := true })).get? j =
          st.get? j) := by
  obtain ⟨old, hold, hid⟩ := findTaskIndex_some st id i hf
  have hold' : st[i]? = some old := by simpa using hold
  refine ⟨old, hold, hid, ?_, ?_, ?_, ?_, ?_⟩
  · simp [putTodos, hf, putCompletedStep]
  · have h2 := get?_modifyAt_self st i (fun t => { t with completed := true })
    rw [hold] at h2
    simp only [putTodos, hf, putCompletedStep]
    simpa using h2
  · simp [putTodos, hf, putCompletedStep, localStoreAfter]
  · simp [putTodos, hf, putCompletedStep, kvStoreAfter]
  · intro j hj
    exact get?_modifyAt_ne st i j _ hj

theorem update_completed_true_frame_witness :
    findTaskIndex [{ id := "a1", task := "x", completed := false,
                     createdAt := "T0" },
                   { id := "b2", task := "y", completed := false,
                     createdAt := "T1" }] "a1" = some 0 ∧
    ∃ old,
      ([{ id := "a1", task := "x", completed := false, createdAt := "T0" },
        { id := "b2", task := "y", completed := false,
          createdAt := "T1" }] : List Task).get? 0 = some old ∧
      old.id = "a1" ∧
      (putTodos [{ id := "a1", task := "x", completed := false,
                   createdAt := "T0" },
                 { id := "b2", task := "y", completed := false,
                   createdAt := "T1" }] "a1"
        { task := none, completed := some (Json.bool true) }).status = 200 ∧
      (putTodos [{ id := "a1", task := "x", completed := false,
                   createdAt := "T0" },
                 { id := "b2", task := "y", completed := false,
                   createdAt := "T1" }] "a1"
        { task := none, completed := some (Json.bool true) }).data =
        some { id := old.id, task := old.task, completed := true,
               createdAt := old.createdAt } ∧
      localStoreAfter (putTodos [{ id := "a1", task := "x", completed := false,
                                   createdAt := "T0" },
                                 { id := "b2", task := "y", completed := false,
                                   createdAt := "T1" }] "a1"
        { task := none, completed := some (Json.bool true) }) =
        modifyAt [{ id := "a1", task := "x", completed := false,
                    createdAt := "T0" },
                  { id := "b2", task := "y", completed := false,
                    createdAt := "T1" }] 0
          (fun t => { t with completed := true }) ∧
      kvStoreAfter [{ id := "a1", task := "x", completed := false,
                      createdAt := "T0" },
                    { id := "b2", task := "y", completed := false,
                      createdAt := "T1" }]
        (putTodos [{ id := "a1", task := "x", completed := false,
                     createdAt := "T0" },
                   { id := "b2", task := "y", completed := false,
                     createdAt := "T1" }] "a1"
          { task := none, completed := some (Json.bool true) }) =
        modifyAt [{ id := "a1", task := "x", completed := false,
                    createdAt := "T0" },
                  { id := "b2", task := "y", completed := false,
                    createdAt := "T1" }] 0
          (fun t => { t with completed := true }) ∧
      (∀ j, j ≠ 0 →
        (modifyAt [{ id := "a1", task := "x", completed := false,
                     createdAt := "T0" },
                   { id := "b2", task := "y", completed := false,
                     createdAt := "T1" }] 0
          (fun t => { t with completed := true })).get? j =
          ([{ id := "a1", task := "x", completed := false, createdAt := "T0" },
            { id := "b2", task := "y", completed := false,
              createdAt := "T1" }] : List Task).get? j) :=
  ⟨by decide,
   update_completed_true_frame
     [{ id := "a1", task := "x", completed := false, createdAt := "T0" },
      { id := "b2", task := "y", completed := false, createdAt := "T1" }]
     "a1" 0 (by decide)⟩

/-- Claim C6: when the update body's `completed` field is present and not a
boolean the request is rejected with a 400 "must be a boolean" error and
nothing is saved; when it is present and boolean it is applied; and only the
fields present in the body are applied before the result is persisted and
returned (shown for the body with only `completed` and for the body with a
valid `task` and `completed`). -/
theorem update_completed_validation (st : List Task) (id : String) (i : Nat)
    (hf : findTaskIndex st id = some i) :
    (∀ cv : Json, (∀ b : Bool, cv ≠ Json.bool b) →
      putTodos st id { task := none, completed := some cv } =
        { status := 400, success := false, data := none,
          error := some "O campo \"completed\" deve ser um booleano",
          arr := st, saved := false }) ∧
    (∀ b : Bool,
      putTodos st id { task := none, completed := some (Json.bool b) } =
        { status := 200, success := true,
          data := (modifyAt st i (fun t => { t with completed := b })).get? i,
          error := none,
          arr := modifyAt st i (fun t => { t with completed := b }),
          saved := true }) ∧
    (∀ s : String, trimStr s ≠ "" → ∀ b : Bool,
      putTodos st id
          { task := some (Json.str s), completed := some (Json.bool b) } =
        { status := 200, success := true,
          data := (modifyAt (modifyAt st i
                      (fun t => { t with task := trimStr s })) i
                    (fun t => { t with completed := b })).get? i,
          error := none,
          arr := modifyAt (modifyAt st i
                    (fun t => { t with task := trimStr s })) i
                  (fun t => { t with completed := b }),
          saved := true }) := by
  refine ⟨?_, ?_, ?_⟩
  · intro cv hb
    match cv with
    | .bool b => exact absurd rfl (hb b)
    | .str s => simp [putTodos, hf, putCompletedStep]
    | .num n => simp [putTodos, hf, putCompletedStep]
    | .null => simp [putTodos, hf, putCompletedStep]
  · intro b
    simp [putTodos, hf, putCompletedStep]
  · intro s hs b
    simp [putTodos, hf, putCompletedStep, Json.isString, Json.asString, hs]

theorem update_completed_validation_witness :
    findTaskIndex [{ id := "a1", task := "x", completed := false,
                     createdAt := "T0" }] "a1" = some 0 ∧
    putTodos [{ id := "a1", task := "x", completed := false,
                createdAt := "T0" }] "a1"
        { task := none, completed := some (Json.num 1) } =
      { status := 400, success := false, data := none,
        error := some "O campo \"completed\" deve ser um booleano",
        arr := [{ id := "a1", task := "x", completed := false,
                  createdAt := "T0" }],
        saved := false } :=
  ⟨by decide,
   (update_completed_validation
      [{ id := "a1", task := "x", completed := false, createdAt := "T0" }]
      "a1" 0 (by decide)).1 (Json.num 1) (fun b => by simp)⟩

/-- Claim C8: deleting an id that is present removes exactly one record (the
length decreases by one), persists the shrunken collection in both storage
modes and returns the removed record with 200; deleting the same id again on
the resulting collection yields 404 and leaves it unchanged.  The stored
collection is assumed to satisfy the id-uniqueness invariant. -/
theorem delete_then_delete_notfound (st : List Task) (id : String) (i : Nat)
    (hf : findTaskIndex st id = some i) (hnd : (st.map Task.id).Nodup) :
    ∃ t, st.get? i = some t ∧ t.id = id ∧
      deleteTodos st id =
        { status := 200, success := true, data := some t, error := none,
          arr := eraseAt st i, saved := true } ∧
      (eraseAt st i).length + 1 = st.length ∧
      localStoreAfter (deleteTodos st id) = eraseAt st i ∧
      kvStoreAfter st (deleteTodos st id) = eraseAt st i ∧
      deleteTodos (eraseAt st i) id =
        { status := 404, success := false, data := none,
          error := some "Tarefa não encontrada", arr := eraseAt st i,
          saved := false } := by
  obtain ⟨t, ht, hid⟩ := findTaskIndex_some st id i hf
  have ht' : st[i]? = some t := by simpa using ht
  have hlt := findTaskIndex_lt_length st id i hf
  have hnone := findTaskIndex_eraseAt st id i hnd hf
  refine ⟨t, ht, hid, ?_, length_eraseAt st i hlt, ?_, ?_, ?_⟩
  · simp [deleteTodos, hf, ht']
  · simp [deleteTodos, hf, localStoreAfter]
  · simp [deleteTodos, hf, kvStoreAfter]
  · simp [deleteTodos, hnone]

theorem delete_then_delete_notfound_witness :
    findTaskIndex [{ id := "a1", task := "x", completed := false,
                     createdAt := "T0" },
                   { id := "b2", task := "y", completed := false,
                     createdAt := "T1" }] "a1" = some 0 ∧
    (([{ id := "a1", task := "x", completed := false, createdAt := "T0" },
       { id := "b2", task := "y", completed := false,
         createdAt := "T1" }] : List Task).map Task.id).Nodup ∧
    deleteTodos [{ id := "a1", task := "x", completed := false,
                   createdAt := "T0" },
                 { id := "b2", task := "y", completed := false,
                   createdAt := "T1" }] "a1" =
      { status := 200, success := true,
        data := some { id := "a1", task := "x", completed := false,
                       createdAt := "T0" },
        error := none,
        arr := [{ id := "b2", task := "y", completed := false,
                  createdAt := "T1" }],
        saved := true } ∧
    deleteTodos [{ id := "b2", task := "y", completed := false,
                   createdAt := "T1" }] "a1" =
      { status := 404, success := false, data := none,
        error := some "Tarefa não encontrada",
        arr := [{ id := "b2", task := "y", completed := false,
                  createdAt := "T1" }],
        saved := false } := by
  obtain ⟨t, ht, hid, hdel, hlen, hloc, hkv, hsecond⟩ :=
    delete_then_delete_notfound
      [{ id := "a1", task := "x", completed := false, createdAt := "T0" },
       { id := "b2", task := "y", completed := false, createdAt := "T1" }]
      "a1" 0 (by decide) (by decide)
  have htv : { id := "a1", task := "x", completed := false,
               createdAt := "T0" } = t := by
    simpa using ht
  subst htv
  exact ⟨by decide, by decide, hdel, hsecond⟩

/-- Claim C2 counterexample: in local in-memory mode the stored array is the
very array the update handler mutates, so an update whose `task` field is
valid but whose `completed` field is not a boolean answers 400 after having
already applied the `task` change: the store observed afterwards differs
from the store before the failed request. -/
theorem update_partial_update_counterexample :
    (putTodos [{ id := "a1", task := "old", completed := false,
                 createdAt := "T0" }] "a1"
      { task := some (Json.str "new"),
        completed := some (Json.num 1) }).status = 400 ∧
    localStoreAfter (putTodos [{ id := "a1", task := "old", completed := false,
                                 createdAt := "T0" }] "a1"
      { task := some (Json.str "new"), completed := some (Json.num 1) }) ≠
      [{ id := "a1", task := "old", completed := false,
         createdAt := "T0" }] := by
  decide

/-- Helper: the update handler either reached `saveTasks` and answered 200,
or it returned early without saving. -/
theorem putTodos_saved_imp_200 (st : List Task) (id : String) (pb : PutBody) :
    (putTodos st id pb).saved = false ∨ (putTodos st id pb).status = 200 := by
  unfold putTodos
  split
  · exact Or.inl rfl
  next i _ =>
    split
    · unfold putCompletedStep
      split
      · exact Or.inr rfl
      · exact Or.inr rfl
      · exact Or.inl rfl
    · split
      · exact Or.inl rfl
      · unfold putCompletedStep
        split
        · exact Or.inr rfl
        · exact Or.inr rfl
        · exact Or.inl rfl

/-- Claim C2 amended: every mutation reads and rewrites the collection as a
whole, and an error response leaves the store unchanged for create and
delete in both storage modes, and for update in KV mode (where `getTasks`
parses a fresh copy).  In local in-memory mode the update handler mutates
the stored array in place, so there an error response after a valid `task`
field was applied leaves that partial change visible (see the
counterexample). -/
theorem mutation_error_preserves_store (st : List Task) (id : String)
    (cb : CreateBody) (pb : PutBody) (newId now : String) :
    ((postTodos st cb newId now).status ≠ 201 →
      localStoreAfter (postTodos st cb newId now) = st ∧
      kvStoreAfter st (postTodos st cb newId now) = st) ∧
    ((deleteTodos st id).status ≠ 200 →
      localStoreAfter (deleteTodos st id) = st ∧
      kvStoreAfter st (deleteTodos st id) = st) ∧
    ((putTodos st id pb).status ≠ 200 →
      kvStoreAfter st (putTodos st id pb) = st) := by
  refine ⟨?_, ?_, ?_⟩
  · intro h
    by_cases hv : invalidCreateTask cb.task
    · constructor <;> simp [postTodos, hv, localStoreAfter, kvStoreAfter]
    · exact absurd (by simp [postTodos, hv]) h
  · intro h
    match hfi : findTaskIndex st id with
    | none =>
        constructor <;>
          simp [deleteTodos, hfi, localStoreAfter, kvStoreAfter]
    | some i => exact absurd (by simp [deleteTodos, hfi]) h
  · intro h
    rcases putTodos_saved_imp_200 st id pb with hs | hs
    · simp [kvStoreAfter, hs]
    · exact absurd hs h

theorem mutation_error_preserves_store_witness :
    (postTodos [] { task := none } "u1" "T1").status ≠ 201 ∧
    (deleteTodos [] "zz").status ≠ 200 ∧
    (putTodos [] "zz" { task := none, completed := none }).status ≠ 200 ∧
    localStoreAfter (postTodos [] { task := none } "u1" "T1") = [] ∧
    kvStoreAfter [] (postTodos [] { task := none } "u1" "T1") = [] ∧
    localStoreAfter (deleteTodos [] "zz") = [] ∧
    kvStoreAfter [] (deleteTodos [] "zz") = [] ∧
    kvStoreAfter [] (putTodos [] "zz" { task := none, completed := none }) =
      [] := by
  obtain ⟨h1, h2, h3⟩ :=
    mutation_error_preserves_store [] "zz" { task := none }
      { task := none, completed := none } "u1" "T1"
  obtain ⟨h1a, h1b⟩ := h1 (by decide)
  obtain ⟨h2a, h2b⟩ := h2 (by decide)
  exact ⟨by decide, by decide, by decide, h1a, h1b, h2a, h2b, h3 (by decide)⟩

/-- Helper: the delete handler leaves the array alone or erases one index. -/
theorem deleteTodos_arr_cases (st : List Task) (id : String) :
    (deleteTodos st id).arr = st ∨
    ∃ i, (deleteTodos st id).arr = eraseAt st i := by
  unfold deleteTodos
  match hfi : findTaskIndex st id with
  | none => exact Or.inl rfl
  | some i => exact Or.inr ⟨i, rfl⟩

/-- The stored collections reachable from the empty collection by any
sequence of create, update and delete requests (local in-memory mode, which
also covers every collection the KV backend can hold, since a KV store after
a request is either the previous collection or the handler's final array).
The `hfresh` hypothesis on `create` is the contract of `generateId`
(`crypto.randomUUID()`): the generated id differs from every stored id. -/
inductive Reachable : List Task → Prop
  | empty : Reachable []
  | create (st : List Task) (body : CreateBody) (newId now : String)
      (hst : Reachable st) (hfresh : ∀ t ∈ st, t.id ≠ newId) :
      Reachable (localStoreAfter (postTodos st body newId now))
  | update (st : List Task) (id : String) (body : PutBody)
      (hst : Reachable st) :
      Reachable (localStoreAfter (putTodos st id body))
  | remove (st : List Task) (id : String) (hst : Reachable st) :
      Reachable (localStoreAfter (deleteTodos st id))

/-- Claim C3: in every reachable stored collection the `id` field is unique:
no two distinct records share an `id`.  Creation only appends a record whose
id is fresh, update never touches ids, and delete only removes a record. -/
theorem reachable_id_unique (st : List Task) (h : Reachable st) :
    (st.map Task.id).Nodup := by
  induction h with
  | empty => simp
  | create st body newId now hst hfresh ih =>
      rcases postTodos_arr_cases st body newId now with hc | ⟨t, hid, hc⟩
      · rw [localStoreAfter, hc]
        exact ih
      · rw [localStoreAfter, hc]
        simp only [List.map_append, List.map_cons, List.map_nil]
        rw [List.nodup_append]
        refine ⟨ih, List.nodup_singleton _, ?_⟩
        intro a ha hb
        simp only [List.mem_singleton] at hb
        subst hb
        obtain ⟨u, hu, hua⟩ := List.mem_map.mp ha
        exact hfresh u hu (by rw [hua, hid])
  | update st id body hst ih =>
      rw [localStoreAfter, putTodos_map_id]
      exact ih
  | remove st id hst ih =>
      rcases deleteTodos_arr_cases st id with hc | ⟨i, hc⟩
      · rw [localStoreAfter, hc]
        exact ih
      · rw [localStoreAfter, hc]
        exact ih.sublist ((eraseAt_sublist st i).map Task.id)

theorem reachable_id_unique_witness :
    Reachable (localStoreAfter
      (postTodos [] { task := some (Json.str "Buy milk") } "id1" "T1")) ∧
    ((localStoreAfter
      (postTodos [] { task := some (Json.str "Buy milk") } "id1" "T1")).map
        Task.id).Nodup := by
  have hr : Reachable (localStoreAfter
      (postTodos [] { task := some (Json.str "Buy milk") } "id1" "T1")) :=
    Reachable.create [] { task := some (Json.str "Buy milk") } "id1" "T1"
      Reachable.empty (by simp)
  exact ⟨hr, reachable_id_unique _ hr⟩

/-- A run, from the empty collection in local in-memory mode, of `n`
successful creates and `m` successful deletes in any order; `created` lists,
in order, every record the create operation stored. -/
inductive CreateDeleteRun : List Task → List Task → Nat → Nat → Prop
  | empty : CreateDeleteRun [] [] 0 0
  | create (created st : List Task) (n m : Nat) (body : CreateBody)
      (newId now : String) (t : Task)
      (h : CreateDeleteRun created st n m)
      (hok : (postTodos st body newId now).status = 201)
      (ht : (postTodos st body newId now).data = some t) :
      CreateDeleteRun (created ++ [t])
        (localStoreAfter (postTodos st body newId now)) (n + 1) m
  | remove (created st : List Task) (n m : Nat) (id : String)
      (h : CreateDeleteRun created st n m)
      (hok : (deleteTodos st id).status = 200) :
      CreateDeleteRun created (localStoreAfter (deleteTodos st id)) n (m + 1)

/-- Claim C9: after any run of `n` successful creates and `m` successful
deletes from the empty collection, the list operation returns exactly
`n - m` records (with `m ≤ n`), and the returned records are a subsequence
of the created records in their original insertion order: the insertion
order is preserved and only the deleted entries are missing. -/
theorem list_after_creates_deletes (created st : List Task) (n m : Nat)
    (h : CreateDeleteRun created st n m) :
    m ≤ n ∧ (getTodos st).2.length = n - m ∧ (getTodos st).2.Sublist created := by
  induction h with
  | empty => simp [getTodos]
  | create created st n m body newId now t h hok ht ih =>
      obtain ⟨hm, hlen, hsub⟩ := ih
      obtain ⟨t', hdata, hid, harr⟩ := postTodos_status_201 st body newId now hok
      rw [ht] at hdata
      obtain rfl : t = t' := Option.some.inj hdata
      rw [localStoreAfter, harr]
      simp only [getTodos] at *
      refine ⟨by omega, by simp; omega, hsub.append (List.Sublist.refl [t])⟩
  | remove created st n m id h hok ih =>
      obtain ⟨hm, hlen, hsub⟩ := ih
      obtain ⟨i, hfi, harr, hdata⟩ := deleteTodos_status_200 st id hok
      have hlt := findTaskIndex_lt_length st id i hfi
      have hlen1 := length_eraseAt st i hlt
      rw [localStoreAfter, harr]
      simp only [getTodos] at *
      exact ⟨by omega, by omega, (eraseAt_sublist st i).trans hsub⟩

theorem list_after_creates_deletes_witness :
    CreateDeleteRun
      [{ id := "i1", task := "a", completed := false, createdAt := "T1" },
       { id := "i2", task := "b", completed := false, createdAt := "T2" }]
      [{ id := "i2", task := "b", completed := false, createdAt := "T2" }]
      2 1 ∧
    1 ≤ 2 ∧
    (getTodos [{ id := "i2", task := "b", completed := false,
                 createdAt := "T2" }]).2.length = 2 - 1 ∧
    (getTodos [{ id := "i2", task := "b", completed := false,
                 createdAt := "T2" }]).2.Sublist
      [{ id := "i1", task := "a", completed := false, createdAt := "T1" },
       { id := "i2", task := "b", completed := false, createdAt := "T2" }] := by
  have h1 : CreateDeleteRun
      [{ id := "i1", task := "a", completed := false, createdAt := "T1" }]
      [{ id := "i1", task := "a", completed := false, createdAt := "T1" }]
      1 0 :=
    CreateDeleteRun.create [] [] 0 0 { task := some (Json.str "a") } "i1" "T1"
      { id := "i1", task := "a", completed := false, createdAt := "T1" }
      CreateDeleteRun.empty (by decide) (by decide)
  have h2 : CreateDeleteRun
      [{ id := "i1", task := "a", completed := false, createdAt := "T1" },
       { id := "i2", task := "b", completed := false, createdAt := "T2" }]
      [{ id := "i1", task := "a", completed := false, createdAt := "T1" },
       { id := "i2", task := "b", completed := false, createdAt := "T2" }]
      2 0 :=
    CreateDeleteRun.create
      [{ id := "i1", task := "a", completed := false, createdAt := "T1" }]
      [{ id := "i1", task := "a", completed := false, createdAt := "T1" }]
      1 0 { task := some (Json.str "b") } "i2" "T2"
      { id := "i2", task := "b", completed := false, createdAt := "T2" }
      h1 (by decide) (by decide)
  have h3 : CreateDeleteRun
      [{ id := "i1", task := "a", completed := false, createdAt := "T1" },
       { id := "i2", task := "b", completed := false, createdAt := "T2" }]
      [{ id := "i2", task := "b", completed := false, createdAt := "T2" }]
      2 1 :=
    CreateDeleteRun.remove
      [{ id := "i1", task := "a", completed := false, createdAt := "T1" },
       { id := "i2", task := "b", completed := false, createdAt := "T2" }]
      [{ id := "i1", task := "a", completed := false, createdAt := "T1" },
       { id := "i2", task := "b", completed := false, createdAt := "T2" }]
      2 0 "i1" h2 (by decide)
  obtain ⟨hm, hlen, hsub⟩ := list_after_creates_deletes _ _ 2 1 h3
  exact ⟨h3, hm, hlen, hsub⟩

end TodoApp
